import Mathlib

/-!
Shallow embedding of the library-management core in `app.py`
(class `LibraryManagementSystem` plus the Flask route wrappers).

The Supabase tables `books`, `borrowers`, `transactions`, `reviews` are
modelled as in-memory lists carried in a `LibraryState`; row ids assigned
by the database are modelled by `next_book_id` / `next_tx_id` counters.
`select(...).eq("id", x)` is modelled by `List.find?` (the code reads
`data[0]`, the first matching row) and `update(...).eq("id", x)` by a
`List.map` that rewrites every row whose id matches, exactly as the SQL
update does.  Timestamps are abstract `Nat` ticks; the NLTK text pipeline
(`word_tokenize`, stop words, Porter stemmer) and the VADER sentiment
scorer are external library calls and enter the model as parameters
(a normalizer `String → Finset String`, a compound score `ℚ`).
-/

namespace LibraryMS

structure Book where
  id : Nat
  title : String
  author : String
  isbn : String
  genre : String
  copies : Int
  available : Int
  deriving Repr, DecidableEq

structure Borrower where
  id : Nat
  name : String
  email : String
  phone : String
  deriving Repr, DecidableEq

structure Transaction where
  id : Nat
  book_id : Nat
  borrower_id : Nat
  borrow_date : Nat
  due_date : Nat
  return_date : Option Nat
  deriving Repr, DecidableEq

structure Review where
  book_id : Nat
  borrower_id : Nat
  review_text : String
  rating : Int
  sentiment : String
  compound : ℚ
  created_at : Nat
  deriving Repr, DecidableEq

structure LibraryState where
  books : List Book
  borrowers : List Borrower
  transactions : List Transaction
  reviews : List Review
  next_book_id : Nat
  next_tx_id : Nat
  deriving Repr, DecidableEq

/-- The empty database. -/
def initState : LibraryState :=
  ⟨[], [], [], [], 0, 0⟩

/-- `add_book`: inserts a row with `available = copies` and returns the fresh
id.  The Python code performs no validation of `copies` whatsoever. -/
def add_book (s : LibraryState) (title author isbn genre : String)
    (copies : Int) : Option Nat × LibraryState :=
  let b : Book := ⟨s.next_book_id, title, author, isbn, genre, copies, copies⟩
  (some s.next_book_id,
   { s with books := s.books ++ [b], next_book_id := s.next_book_id + 1 })

/-- `get_all_books` builds the Python dict `{book["id"]: book for book in data}`:
we model it as the id-keyed association sequence. -/
def get_all_books (s : LibraryState) : List (Nat × Book) :=
  s.books.map (fun b => (b.id, b))

/-- Lookup in the dict built by `get_all_books`: a dict comprehension keeps the
LAST row for a duplicated key, hence `getLast?` of the matching rows. -/
def books_dict_get (s : LibraryState) (i : Nat) : Option Book :=
  (s.books.filter (fun b => b.id == i)).getLast?

/-- `borrow_book`: reads the `available` field of the book (first row matching the id);
if there is no row or `available <= 0` it fails with the single message
"No copies available"; otherwise it inserts an open transaction and writes
`available := read_value - 1`.  The borrower id is never looked up. -/
def borrow_book (s : LibraryState) (bid brid : Nat) (now days : Nat) :
    (Bool × String) × LibraryState :=
  match s.books.find? (fun b => b.id == bid) with
  | none => ((false, "No copies available"), s)
  | some b =>
    if b.available ≤ 0 then ((false, "No copies available"), s)
    else
      let tx : Transaction := ⟨s.next_tx_id, bid, brid, now, now + days, none⟩
      ((true, "Book borrowed successfully. Due date: " ++ toString (now + days)),
       { s with
         transactions := s.transactions ++ [tx],
         next_tx_id := s.next_tx_id + 1,
         books := s.books.map (fun x =>
           if x.id == bid then { x with available := b.available - 1 } else x) })

/-- `return_book`: fails (one shared message) if the transaction id is unknown
or its `return_date` is already set; otherwise stamps the return date, then
increments the `available` of the referenced book by 1 — but only if that book
still exists (a dangling `book_id` is silently tolerated). -/
def return_book (s : LibraryState) (tid : Nat) (now : Nat) :
    (Bool × String) × LibraryState :=
  match s.transactions.find? (fun t => t.id == tid) with
  | none => ((false, "Invalid transaction or book already returned"), s)
  | some t =>
    if t.return_date.isSome then
      ((false, "Invalid transaction or book already returned"), s)
    else
      let transactions2 := s.transactions.map (fun x =>
        if x.id == tid then { x with return_date := some now } else x)
      let books2 :=
        match s.books.find? (fun b => b.id == t.book_id) with
        | none => s.books
        | some b => s.books.map (fun x =>
            if x.id == t.book_id then { x with available := b.available + 1 } else x)
      ((true, "Book returned successfully"),
       { s with transactions := transactions2, books := books2 })

/-- Sentiment bucketing written inline in `add_review`:
"positive" if compound > 0.05 else "negative" if compound < -0.05 else
"neutral". -/
def sentimentLabel (compound : ℚ) : String :=
  if compound > 5 / 100 then "positive"
  else if compound < -(5 / 100) then "negative"
  else "neutral"

/-- `add_review` of the `LibraryManagementSystem` class: classifies the text
(the VADER compound score enters as the parameter `compound`), inserts the
review row, and reports the label.  The book id is NOT checked here. -/
def add_review (s : LibraryState) (bid brid : Nat) (text : String)
    (rating : Int) (compound : ℚ) (now : Nat) : (Bool × String) × LibraryState :=
  let sentiment := sentimentLabel compound
  ((true, "Review added with " ++ sentiment ++ " sentiment"),
   { s with reviews := s.reviews ++ [⟨bid, brid, text, rating, sentiment, compound, now⟩] })

/-- The Flask route `add_review/<book_id>`: it checks `book_id not in books`
and rejects with "Book not found" BEFORE calling the class method. -/
def route_add_review (s : LibraryState) (bid brid : Nat) (text : String)
    (rating : Int) (compound : ℚ) (now : Nat) : (Bool × String) × LibraryState :=
  if (s.books.find? (fun b => b.id == bid)).isNone then ((false, "Book not found"), s)
  else add_review s bid brid text rating compound now

/-- The list of metadata fields selected by `search_type` in `search_books`
(the three `if search_type in [..., "all"]` appends). -/
def search_fields (scope : String) (b : Book) : List String :=
  (if scope = "title" ∨ scope = "all" then [b.title] else []) ++
  (if scope = "author" ∨ scope = "all" then [b.author] else []) ++
  (if scope = "genre" ∨ scope = "all" then [b.genre] else [])

/-- `" ".join(search_fields)`. -/
def combinedText (scope : String) (b : Book) : String :=
  String.intercalate " " (search_fields scope b)

/-- Jaccard similarity as computed in `search_books`:
`len(intersection) / len(union)`, with books skipped (score 0) when the
union is empty. -/
def jaccardSim (q f : Finset String) : ℚ :=
  if (q ∪ f).card = 0 then 0 else ((q ∩ f).card : ℚ) / ((q ∪ f).card : ℚ)

/-- The comparison used by the Python sort call (descending, key x[1]):
descending by the similarity component. -/
def descBySnd (x y : Nat × ℚ) : Bool :=
  decide (y.2 ≤ x.2)

/-- The unsorted `results` list built by the loop of `search_books`: a pair
`(book_id, similarity)` for every book whose similarity against the query is
strictly positive.  The NLTK normalizer `preprocess_text` enters as the
parameter `norm`. -/
def search_raw (norm : String → Finset String) (books : List Book)
    (query scope : String) : List (Nat × ℚ) :=
  books.filterMap (fun b =>
    if 0 < jaccardSim (norm query) (norm (combinedText scope b)) then
      some (b.id, jaccardSim (norm query) (norm (combinedText scope b)))
    else none)

/-- The `results` list after the final sort.  The Python list sort is a stable
merge sort; with `reverse=True` it keeps ties in original order, i.e. it is
the stable merge sort under `descBySnd`. -/
def search_results (norm : String → Finset String) (books : List Book)
    (query scope : String) : List (Nat × ℚ) :=
  (search_raw norm books query scope).mergeSort descBySnd

/-- `search_books` returns the ranked book ids only. -/
def search_books (norm : String → Finset String) (books : List Book)
    (query scope : String) : List Nat :=
  (search_results norm books query scope).map Prod.fst

/-!
Fine-grained model of `borrow_book` for the concurrency claim: the method
performs three separate network round-trips — SELECT available, INSERT
transaction, UPDATE available — with no lock or conditional update, so two
interleaved calls can both observe the same `available` value.  A client is
a small program counter plus the value its SELECT observed.
-/

structure BorrowClient where
  pc : Nat
  seen : Int
  result : Option (Bool × String)
  deriving Repr, DecidableEq

def clientInit : BorrowClient := ⟨0, 0, none⟩

/-- One atomic database round-trip of one in-flight `borrow_book` call. -/
def clientStep (bid brid now days : Nat) (c : BorrowClient) (s : LibraryState) :
    BorrowClient × LibraryState :=
  match c.pc with
  | 0 =>
    match s.books.find? (fun b => b.id == bid) with
    | none => ({ c with pc := 3, result := some (false, "No copies available") }, s)
    | some b =>
      if b.available ≤ 0 then
        ({ c with pc := 3, result := some (false, "No copies available") }, s)
      else ({ c with pc := 1, seen := b.available }, s)
  | 1 =>
    let tx : Transaction := ⟨s.next_tx_id, bid, brid, now, now + days, none⟩
    ({ c with pc := 2 },
     { s with transactions := s.transactions ++ [tx], next_tx_id := s.next_tx_id + 1 })
  | 2 =>
    let msg := "Book borrowed successfully. Due date: " ++ toString (now + days)
    let c2 : BorrowClient := { c with pc := 3, result := some (true, msg) }
    (c2,
     { s with books := s.books.map (fun x =>
         if x.id == bid then { x with available := c.seen - 1 } else x) })
  | _ => (c, s)

/-- Run two concurrent `borrow_book` calls under a schedule: `true` steps
client 1, `false` steps client 2. -/
def runSchedule (bid brid now days : Nat) :
    List Bool → BorrowClient × BorrowClient × LibraryState →
    BorrowClient × BorrowClient × LibraryState
  | [], st => st
  | (pick :: rest), (c1, c2, s) =>
    if pick then
      let p := clientStep bid brid now days c1 s
      runSchedule bid brid now days rest (p.1, c2, p.2)
    else
      let p := clientStep bid brid now days c2 s
      runSchedule bid brid now days rest (c1, p.1, p.2)

/-- A transaction row that is open and references book `bid`. -/
def isOpenFor (bid : Nat) (t : Transaction) : Bool :=
  t.book_id == bid && t.return_date == none

/-- Number of open transactions referencing book `bid`. -/
def openCount (s : LibraryState) (bid : Nat) : Nat :=
  s.transactions.countP (isOpenFor bid)

/-- Well-formed ledger states: row ids are unique, the transaction id counter
is fresh, and each book satisfies the accounting equation
`available + (open transactions on it) = copies` with `available ≥ 0`.
This holds for any catalog freshly populated by `add_book` with
`copies ≥ 0` and no transactions. -/
def wf (s : LibraryState) : Prop :=
  (s.books.map Book.id).Nodup ∧
  (s.transactions.map Transaction.id).Nodup ∧
  (∀ t ∈ s.transactions, t.id < s.next_tx_id) ∧
  (∀ b ∈ s.books, 0 ≤ b.available ∧ b.available + (openCount s b.id : Int) = b.copies)

/-- A circulation event: one `borrow_book` or one `return_book` call. -/
inductive LibOp where
  | borrow (bid brid now days : Nat)
  | ret (tid now : Nat)
  deriving Repr, DecidableEq

def applyOp (s : LibraryState) : LibOp → LibraryState
  | LibOp.borrow bid brid now days => (borrow_book s bid brid now days).2
  | LibOp.ret tid now => (return_book s tid now).2

/-- The state after a sequence of borrow/return calls. -/
def runOps (s : LibraryState) (ops : List LibOp) : LibraryState :=
  ops.foldl applyOp s

lemma map_key_map_update {α β : Type} (key : α → β) (f : α → α) (l : List α)
    (h : ∀ x, key (f x) = key x) : (l.map f).map key = l.map key := by
  rw [List.map_map]
  exact List.map_congr_left (fun a _ => h a)

lemma find?_key_eq {α : Type} (key : α → Nat) {l : List α} {k : Nat} {a : α}
    (hn : (l.map key).Nodup) (ha : l.find? (fun x => key x == k) = some a) :
    ∀ x ∈ l, key x = k → x = a := by
  intro x hx hxk
  have hamem : a ∈ l := List.mem_of_find?_eq_some ha
  have hak : key a = k := by simpa using List.find?_some ha
  exact List.inj_on_of_nodup_map hn hx hamem (by rw [hxk, hak])

/-- Effect of an id-targeted update on a `countP`, when ids are unique:
only the row found by `find?` changes. -/
lemma countP_map_update {α : Type} (key : α → Nat) (upd : α → α) (p : α → Bool)
    {l : List α} {k : Nat} {a : α} (hn : (l.map key).Nodup)
    (ha : l.find? (fun x => key x == k) = some a) :
    (l.map (fun x => if key x == k then upd x else x)).countP p
      + (if p a then 1 else 0)
      = l.countP p + (if p (upd a) then 1 else 0) := by
  induction l with
  | nil => simp at ha
  | cons y ys ih =>
    by_cases hy : (key y == k) = true
    · have hay : a = y := by
        have h1 : List.find? (fun x => key x == k) (y :: ys) = some y :=
          List.find?_cons_of_pos ys hy
        rw [h1] at ha
        exact (Option.some_inj.mp ha).symm
      have hkyk : key y = k := by simpa using hy
      have hys : ∀ z ∈ ys, ¬ ((key z == k) = true) := by
        intro z hz hzk
        have hzk2 : key z = k := by simpa using hzk
        have hzy : key z = key y := by rw [hzk2, hkyk]
        have : key y ∈ ys.map key := hzy ▸ List.mem_map_of_mem key hz
        simp only [List.map_cons, List.nodup_cons] at hn
        exact hn.1 this
      have hmap : ys.map (fun x => if key x == k then upd x else x) = ys := by
        have hcongr := List.map_congr_left (l := ys)
          (f := fun x => if key x == k then upd x else x) (g := id)
          (fun z hz => by
            show (if (key z == k) = true then upd z else z) = z
            rw [if_neg (hys z hz)])
        rw [hcongr, List.map_id]
      subst hay
      simp only [List.map_cons, if_pos hy, hmap, List.countP_cons]
      omega
    · have hfind : List.find? (fun x => key x == k) (y :: ys) =
          List.find? (fun x => key x == k) ys :=
        List.find?_cons_of_neg ys hy
      rw [hfind] at ha
      have hn2 : (ys.map key).Nodup := by
        simp only [List.map_cons, List.nodup_cons] at hn
        exact hn.2
      have := ih hn2 ha
      simp only [List.map_cons, if_neg hy, List.countP_cons]
      omega

/-- `borrow_book` when the book id has no row. -/
lemma borrow_book_no_row {s : LibraryState} {bid : Nat}
    (hfind : s.books.find? (fun x => x.id == bid) = none) (brid now days : Nat) :
    borrow_book s bid brid now days = ((false, "No copies available"), s) := by
  unfold borrow_book
  rw [hfind]

/-- `borrow_book` when the row exists but has no copies left. -/
lemma borrow_book_unavailable {s : LibraryState} {bid : Nat} {b : Book}
    (hfind : s.books.find? (fun x => x.id == bid) = some b)
    (hav : b.available ≤ 0) (brid now days : Nat) :
    borrow_book s bid brid now days = ((false, "No copies available"), s) := by
  unfold borrow_book
  rw [hfind]
  simp [hav]

/-- `borrow_book` on an available book: the returned state. -/
lemma borrow_book_success {s : LibraryState} {bid : Nat} {b : Book}
    (hfind : s.books.find? (fun x => x.id == bid) = some b)
    (hav : ¬ b.available ≤ 0) (brid now days : Nat) :
    borrow_book s bid brid now days =
      ((true, "Book borrowed successfully. Due date: " ++ toString (now + days)),
       { s with
         transactions := s.transactions ++ [⟨s.next_tx_id, bid, brid, now, now + days, none⟩],
         next_tx_id := s.next_tx_id + 1,
         books := s.books.map (fun x =>
           if x.id == bid then { x with available := b.available - 1 } else x) }) := by
  unfold borrow_book
  rw [hfind]
  simp [hav]

/-- `return_book` when the transaction id has no row. -/
lemma return_book_no_row {s : LibraryState} {tid : Nat}
    (hfind : s.transactions.find? (fun x => x.id == tid) = none) (now : Nat) :
    return_book s tid now = ((false, "Invalid transaction or book already returned"), s) := by
  unfold return_book
  rw [hfind]

/-- `return_book` on an already-closed transaction. -/
lemma return_book_closed {s : LibraryState} {tid : Nat} {t : Transaction}
    (hfind : s.transactions.find? (fun x => x.id == tid) = some t)
    (hclosed : t.return_date.isSome) (now : Nat) :
    return_book s tid now = ((false, "Invalid transaction or book already returned"), s) := by
  unfold return_book
  rw [hfind]
  simp [hclosed]

/-- `return_book` on an open transaction: the returned state. -/
lemma return_book_success {s : LibraryState} {tid : Nat} {t : Transaction}
    (hfind : s.transactions.find? (fun x => x.id == tid) = some t)
    (hopen : t.return_date = none) (now : Nat) :
    return_book s tid now =
      ((true, "Book returned successfully"),
       { s with
         transactions := s.transactions.map (fun x =>
           if x.id == tid then { x with return_date := some now } else x),
         books :=
           match s.books.find? (fun b => b.id == t.book_id) with
           | none => s.books
           | some b => s.books.map (fun x =>
               if x.id == t.book_id then { x with available := b.available + 1 } else x) }) := by
  unfold return_book
  rw [hfind]
  simp [hopen]

lemma avail_update_id (bid : Nat) (v : Int) (x : Book) :
    (if (x.id == bid) = true then { x with available := v } else x).id = x.id := by
  split <;> rfl

lemma rd_update_id (tid : Nat) (d : Option Nat) (x : Transaction) :
    (if (x.id == tid) = true then { x with return_date := d } else x).id = x.id := by
  split <;> rfl

/-- `borrow_book` preserves well-formedness. -/
theorem wf_borrow (s : LibraryState) (h : wf s) (bid brid now days : Nat) :
    wf (borrow_book s bid brid now days).2 := by
  obtain ⟨hbn, htn, hbound, hinv⟩ := h
  cases hfind : s.books.find? (fun x => x.id == bid) with
  | none => rw [borrow_book_no_row hfind] ; exact ⟨hbn, htn, hbound, hinv⟩
  | some b =>
    by_cases hav : b.available ≤ 0
    · rw [borrow_book_unavailable hfind hav]
      exact ⟨hbn, htn, hbound, hinv⟩
    · rw [borrow_book_success hfind hav]
      have hbid : b.id = bid := by simpa using List.find?_some hfind
      have hbmem : b ∈ s.books := List.mem_of_find?_eq_some hfind
      have hocount : ∀ k, List.countP (isOpenFor k)
          (s.transactions ++ [⟨s.next_tx_id, bid, brid, now, now + days, none⟩])
          = openCount s k + (if bid == k then 1 else 0) := by
        intro k
        rw [List.countP_append, openCount]
        simp only [List.countP_cons, List.countP_nil, isOpenFor]
        simp
      refine ⟨?_, ?_, ?_, ?_⟩
      · show ((s.books.map (fun x =>
            if x.id == bid then { x with available := b.available - 1 } else x)).map
              Book.id).Nodup
        rw [map_key_map_update Book.id _ s.books (avail_update_id bid _)]
        exact hbn
      · show (((s.transactions ++
            [(⟨s.next_tx_id, bid, brid, now, now + days, none⟩ : Transaction)]).map
              Transaction.id)).Nodup
        rw [List.map_append]
        refine List.Nodup.append htn (List.nodup_singleton _) ?_
        intro x hx hx2
        have hxe : x = s.next_tx_id := by simpa using hx2
        obtain ⟨u, hu, hux⟩ := List.mem_map.mp hx
        have := hbound u hu
        omega
      · show ∀ u ∈ s.transactions ++
            [(⟨s.next_tx_id, bid, brid, now, now + days, none⟩ : Transaction)],
            u.id < s.next_tx_id + 1
        intro u hu
        rcases List.mem_append.mp hu with hl | hr
        · have := hbound u hl
          omega
        · have hue : u = (⟨s.next_tx_id, bid, brid, now, now + days, none⟩ : Transaction) := by
            simpa using hr
          rw [hue]
          exact Nat.lt_succ_self _
      · show ∀ b2 ∈ s.books.map (fun x =>
            if x.id == bid then { x with available := b.available - 1 } else x),
            0 ≤ b2.available ∧ b2.available +
              (List.countP (isOpenFor b2.id)
                (s.transactions ++ [⟨s.next_tx_id, bid, brid, now, now + days, none⟩]) : Int)
              = b2.copies
        intro b2 hb2
        obtain ⟨x, hx, rfl⟩ := List.mem_map.mp hb2
        by_cases hxk : (x.id == bid) = true
        · have hxb : x = b := find?_key_eq Book.id hbn hfind x hx (by simpa using hxk)
          subst hxb
          have hxinv := hinv x hx
          simp only [if_pos hxk]
          have hbidx : (bid == x.id) = true := by
            have hxid : x.id = bid := by simpa using hxk
            simp [hxid]
          show 0 ≤ x.available - 1 ∧ x.available - 1 +
              (List.countP (isOpenFor x.id) _ : Int) = x.copies
          rw [hocount, if_pos hbidx]
          push_cast
          omega
        · simp only [if_neg hxk]
          have hxinv := hinv x hx
          refine ⟨hxinv.1, ?_⟩
          have hbidx : ¬ ((bid == x.id) = true) := by
            intro hcon
            have hxid : bid = x.id := by simpa using hcon
            exact hxk (by simp [hxid])
          rw [hocount, if_neg hbidx]
          push_cast
          have := hxinv.2
          rw [openCount] at this
          omega

/-- `return_book` preserves well-formedness. -/
theorem wf_return (s : LibraryState) (h : wf s) (tid now : Nat) :
    wf (return_book s tid now).2 := by
  obtain ⟨hbn, htn, hbound, hinv⟩ := h
  cases hfind : s.transactions.find? (fun x => x.id == tid) with
  | none => rw [return_book_no_row hfind] ; exact ⟨hbn, htn, hbound, hinv⟩
  | some t =>
    cases hrd : t.return_date with
    | some d =>
      rw [return_book_closed hfind (by simp [hrd])]
      exact ⟨hbn, htn, hbound, hinv⟩
    | none =>
      rw [return_book_success hfind hrd]
      have htmem : t ∈ s.transactions := List.mem_of_find?_eq_some hfind
      have hcount2 : ∀ k, (s.transactions.map (fun x =>
            if x.id == tid then { x with return_date := some now } else x)).countP
              (isOpenFor k)
            + (if (t.book_id == k) = true then 1 else 0) = openCount s k := by
        intro k
        have hc := countP_map_update Transaction.id
          (fun x => { x with return_date := some now }) (isOpenFor k) htn hfind
        have ho : isOpenFor k t = (t.book_id == k) := by
          simp [isOpenFor, hrd]
        have hcl : isOpenFor k ({ t with return_date := some now }) = false := by
          simp [isOpenFor]
        rw [ho, hcl] at hc
        simpa [openCount] using hc
      have htmap : ∀ u ∈ s.transactions.map (fun x =>
          if x.id == tid then { x with return_date := some now } else x),
          ∃ v ∈ s.transactions, u.id = v.id := by
        intro u hu
        obtain ⟨v, hv, rfl⟩ := List.mem_map.mp hu
        exact ⟨v, hv, rd_update_id tid (some now) v⟩
      have htnodup : ((s.transactions.map (fun x =>
          if x.id == tid then { x with return_date := some now } else x)).map
            Transaction.id).Nodup := by
        rw [map_key_map_update Transaction.id _ s.transactions (rd_update_id tid (some now))]
        exact htn
      cases hbfind : s.books.find? (fun b => b.id == t.book_id) with
      | none =>
        simp only [hbfind]
        have hnoref : ∀ b2 ∈ s.books, ¬ ((b2.id == t.book_id) = true) :=
          List.find?_eq_none.mp hbfind
        refine ⟨hbn, htnodup, ?_, ?_⟩
        · show ∀ u ∈ s.transactions.map (fun x =>
              if x.id == tid then { x with return_date := some now } else x),
              u.id < s.next_tx_id
          intro u hu
          obtain ⟨v, hv, huv⟩ := htmap u hu
          rw [huv]
          exact hbound v hv
        · show ∀ b2 ∈ s.books,
              0 ≤ b2.available ∧ b2.available +
                (List.countP (isOpenFor b2.id) (s.transactions.map (fun x =>
                  if x.id == tid then { x with return_date := some now } else x)) : Int)
                = b2.copies
          intro b2 hb2
          have hbinv := hinv b2 hb2
          refine ⟨hbinv.1, ?_⟩
          have hxid : ¬ ((t.book_id == b2.id) = true) := by
            intro hcon
            have hcon2 : t.book_id = b2.id := by simpa using hcon
            exact hnoref b2 hb2 (by simp [hcon2])
          have hc := hcount2 b2.id
          rw [if_neg hxid] at hc
          simp only [Nat.add_zero] at hc
          rw [hc]
          have := hbinv.2
          rw [openCount] at this
          exact this
      | some bk =>
        simp only [hbfind]
        have hbkmem : bk ∈ s.books := List.mem_of_find?_eq_some hbfind
        have hbkid : bk.id = t.book_id := by simpa using List.find?_some hbfind
        refine ⟨?_, htnodup, ?_, ?_⟩
        · show ((s.books.map (fun x =>
              if x.id == t.book_id then { x with available := bk.available + 1 } else x)).map
                Book.id).Nodup
          rw [map_key_map_update Book.id _ s.books (avail_update_id t.book_id _)]
          exact hbn
        · show ∀ u ∈ s.transactions.map (fun x =>
              if x.id == tid then { x with return_date := some now } else x),
              u.id < s.next_tx_id
          intro u hu
          obtain ⟨v, hv, huv⟩ := htmap u hu
          rw [huv]
          exact hbound v hv
        · show ∀ b2 ∈ s.books.map (fun x =>
              if x.id == t.book_id then { x with available := bk.available + 1 } else x),
              0 ≤ b2.available ∧ b2.available +
                (List.countP (isOpenFor b2.id) (s.transactions.map (fun x =>
                  if x.id == tid then { x with return_date := some now } else x)) : Int)
                = b2.copies
          intro b2 hb2
          obtain ⟨x, hx, rfl⟩ := List.mem_map.mp hb2
          by_cases hxk : (x.id == t.book_id) = true
          · have hxbk : x = bk := find?_key_eq Book.id hbn hbfind x hx (by simpa using hxk)
            subst hxbk
            have hxinv := hinv x hx
            simp only [if_pos hxk]
            have hxid : (t.book_id == x.id) = true := by
              have hxe : x.id = t.book_id := by simpa using hxk
              simp [hxe]
            have hc := hcount2 x.id
            rw [if_pos hxid] at hc
            have hxinv1 := hxinv.1
            have hxinv2 := hxinv.2
            rw [openCount] at hxinv2
            constructor
            · omega
            · omega
          · simp only [if_neg hxk]
            have hxinv := hinv x hx
            refine ⟨hxinv.1, ?_⟩
            have hxid : ¬ ((t.book_id == x.id) = true) := by
              intro hcon
              have hcon2 : t.book_id = x.id := by simpa using hcon
              exact hxk (by simp [hcon2])
            have hc := hcount2 x.id
            rw [if_neg hxid] at hc
            simp only [Nat.add_zero] at hc
            rw [hc]
            have := hxinv.2
            rw [openCount] at this
            exact this

/-- Well-formedness is preserved by any sequence of borrow/return calls. -/
theorem wf_runOps (ops : List LibOp) : ∀ s : LibraryState, wf s → wf (runOps s ops) := by
  induction ops with
  | nil => intro s h ; exact h
  | cons op rest ih =>
    intro s h
    have h2 : wf (applyOp s op) := by
      cases op with
      | borrow bid brid now days => exact wf_borrow s h bid brid now days
      | ret tid now => exact wf_return s h tid now
    simpa [runOps] using ih (applyOp s op) h2

/-- C1: starting from any well-formed ledger state, after every sequence of
borrow/return calls every book satisfies `0 ≤ available ≤ copies`; moreover a
successful `return_book` of an open transaction whose book exists increments
the `available` of that book by exactly 1, and the result still does not exceed
`copies` (so the "cap at total copies" is never exceeded — the code has no
explicit cap, but under borrow/return sequences the bound holds). -/
theorem borrow_return_available_invariant (s : LibraryState) (h : wf s) :
    (∀ ops : List LibOp, ∀ b ∈ (runOps s ops).books,
        0 ≤ b.available ∧ b.available ≤ b.copies)
    ∧ (∀ tid now t, s.transactions.find? (fun x => x.id == tid) = some t →
        t.return_date = none →
        (return_book s tid now).1.1 = true ∧
        ∀ b ∈ s.books, b.id = t.book_id →
          { b with available := b.available + 1 } ∈ (return_book s tid now).2.books ∧
          b.available + 1 ≤ b.copies) := by
  constructor
  · intro ops b hb
    have hw := wf_runOps ops s h
    have hinv := hw.2.2.2 b hb
    have h1 := hinv.1
    have h2 := hinv.2
    omega
  · intro tid now t hfind hrd
    obtain ⟨hbn, htn, hbound, hinv⟩ := h
    rw [return_book_success hfind hrd]
    refine ⟨rfl, ?_⟩
    intro b hb hbid2
    have hbfind : s.books.find? (fun x => x.id == t.book_id) = some b := by
      cases hbf : s.books.find? (fun x => x.id == t.book_id) with
      | none => exact absurd (by simp [hbid2]) (List.find?_eq_none.mp hbf b hb)
      | some b2 =>
        have hbb : b = b2 := find?_key_eq Book.id hbn hbf b hb hbid2
        rw [hbb]
    simp only [hbfind]
    constructor
    · have heq : ({ b with available := b.available + 1 } : Book) =
          (fun x => if x.id == t.book_id then { x with available := b.available + 1 } else x) b := by
        simp [hbid2]
      rw [heq]
      exact List.mem_map_of_mem _ hb
    · have hbinv := hinv b hb
      have hone : 0 < openCount s b.id := by
        rw [openCount]
        refine List.countP_pos_iff.mpr ⟨t, List.mem_of_find?_eq_some hfind, ?_⟩
        simp [isOpenFor, hrd, hbid2]
      have h2 := hbinv.2
      omega

/-- A concrete well-formed state: one book (2 copies, 1 available) with one
open transaction on it. -/
def wfWitnessState : LibraryState :=
  ⟨[⟨1, "t", "a", "i", "g", 2, 1⟩], [], [⟨0, 1, 7, 0, 14, none⟩], [], 2, 1⟩

theorem borrow_return_available_invariant_witness :
    0 ≤ (Book.mk 1 "t" "a" "i" "g" 2 2).available ∧
    (Book.mk 1 "t" "a" "i" "g" 2 2).available ≤ (Book.mk 1 "t" "a" "i" "g" 2 2).copies :=
  (borrow_return_available_invariant wfWitnessState (by unfold wf ; decide)).1
    [LibOp.ret 0 5] (Book.mk 1 "t" "a" "i" "g" 2 2) (by decide)

/-- C7: borrowing a book whose `available` is 0 fails with the
"No copies available" (InvalidState / NoCopiesAvailable) result and returns
the state completely unchanged: no transaction row is inserted and no
counter is decremented. -/
theorem borrow_unavailable_no_mutation (s : LibraryState) (bid brid now days : Nat)
    (b : Book) (hfind : s.books.find? (fun x => x.id == bid) = some b)
    (hav : b.available = 0) :
    borrow_book s bid brid now days = ((false, "No copies available"), s) :=
  borrow_book_unavailable hfind (le_of_eq hav) brid now days

theorem borrow_unavailable_no_mutation_witness :
    borrow_book ⟨[⟨1, "t", "a", "i", "g", 3, 0⟩], [], [], [], 2, 0⟩ 1 5 0 14 =
      ((false, "No copies available"), ⟨[⟨1, "t", "a", "i", "g", 3, 0⟩], [], [], [], 2, 0⟩) :=
  borrow_unavailable_no_mutation ⟨[⟨1, "t", "a", "i", "g", 3, 0⟩], [], [], [], 2, 0⟩
    1 5 0 14 ⟨1, "t", "a", "i", "g", 3, 0⟩ (by decide) (by decide)

/-- C8: `return_book` fails when the transaction id has no row (NotFound) and
when the return timestamp of the transaction is already set (AlreadyReturned);
the code reports both through the one message
"Invalid transaction or book already returned", and in both cases the state
is returned unchanged — hence a transaction closes at most once. -/
theorem return_book_failure_cases (s : LibraryState) (tid now : Nat) :
    (s.transactions.find? (fun x => x.id == tid) = none →
      return_book s tid now = ((false, "Invalid transaction or book already returned"), s))
    ∧ (∀ t, s.transactions.find? (fun x => x.id == tid) = some t →
        t.return_date.isSome →
        return_book s tid now = ((false, "Invalid transaction or book already returned"), s)) := by
  constructor
  · intro h
    exact return_book_no_row h now
  · intro t h1 h2
    exact return_book_closed h1 h2 now

theorem return_book_failure_cases_witness :
    (return_book initState 0 9 =
      ((false, "Invalid transaction or book already returned"), initState))
    ∧ (return_book ⟨[], [], [⟨0, 1, 7, 0, 14, some 3⟩], [], 0, 1⟩ 0 9 =
      ((false, "Invalid transaction or book already returned"),
       ⟨[], [], [⟨0, 1, 7, 0, 14, some 3⟩], [], 0, 1⟩)) :=
  ⟨(return_book_failure_cases initState 0 9).1 (by decide),
   (return_book_failure_cases ⟨[], [], [⟨0, 1, 7, 0, 14, some 3⟩], [], 0, 1⟩ 0 9).2
     ⟨0, 1, 7, 0, 14, some 3⟩ (by decide) (by decide)⟩

/-- C10: returning an open transaction whose `book_id` matches no book in the
catalog still succeeds — the return timestamp is stamped, the success result
is produced, and the book table is left entirely unchanged. -/
theorem return_dangling_book_succeeds (s : LibraryState) (tid now : Nat)
    (t : Transaction)
    (hfind : s.transactions.find? (fun x => x.id == tid) = some t)
    (hopen : t.return_date = none)
    (hnobook : s.books.find? (fun b => b.id == t.book_id) = none) :
    (return_book s tid now).1 = (true, "Book returned successfully")
    ∧ (return_book s tid now).2.books = s.books
    ∧ { t with return_date := some now } ∈ (return_book s tid now).2.transactions := by
  rw [return_book_success hfind hopen]
  simp only [hnobook]
  refine ⟨trivial, trivial, ?_⟩
  have hteq : ({ t with return_date := some now } : Transaction) =
      (fun x => if x.id == tid then { x with return_date := some now } else x) t := by
    have htid : (t.id == tid) = true := by simpa using List.find?_some hfind
    simp [htid]
  rw [hteq]
  exact List.mem_map_of_mem _ (List.mem_of_find?_eq_some hfind)

theorem return_dangling_book_succeeds_witness :
    (return_book ⟨[], [], [⟨0, 42, 7, 0, 14, none⟩], [], 0, 1⟩ 0 9).1 =
        (true, "Book returned successfully")
    ∧ (return_book ⟨[], [], [⟨0, 42, 7, 0, 14, none⟩], [], 0, 1⟩ 0 9).2.books =
        (⟨[], [], [⟨0, 42, 7, 0, 14, none⟩], [], 0, 1⟩ : LibraryState).books
    ∧ (⟨0, 42, 7, 0, 14, some 9⟩ : Transaction) ∈
        (return_book ⟨[], [], [⟨0, 42, 7, 0, 14, none⟩], [], 0, 1⟩ 0 9).2.transactions :=
  return_dangling_book_succeeds ⟨[], [], [⟨0, 42, 7, 0, 14, none⟩], [], 0, 1⟩ 0 9
    ⟨0, 42, 7, 0, 14, none⟩ (by decide) (by decide) (by decide)

/-- C3 counterexample: borrowing a book id with no matching row fails with the
very same "No copies available" result that signals zero availability — not a
distinct InvalidReference failure — and a borrow with a borrower id that does
not exist at all still succeeds, so borrower existence is never checked. -/
theorem borrow_missing_book_not_invalid_reference :
    (borrow_book ⟨[], [⟨7, "n", "e", "p"⟩], [], [], 0, 0⟩ 1 7 0 14).1 =
        (false, "No copies available")
    ∧ (borrow_book ⟨[⟨1, "t", "a", "i", "g", 1, 1⟩], [], [], [], 2, 0⟩ 1 99 0 14).1.1 =
        true := by
  exact ⟨rfl, rfl⟩

/-- C3 amended: `borrow_book` fails precisely when the book row is missing or
its `available` is ≤ 0, always with the single NoCopiesAvailable message
"No copies available"; the borrower table plays no role in the outcome. -/
theorem borrow_failure_iff_no_copies (s : LibraryState) (bid brid now days : Nat) :
    ((borrow_book s bid brid now days).1.1 = false ↔
      ∀ b, s.books.find? (fun x => x.id == bid) = some b → b.available ≤ 0)
    ∧ ((borrow_book s bid brid now days).1.1 = false →
        (borrow_book s bid brid now days).1.2 = "No copies available")
    ∧ (borrow_book { s with borrowers := [] } bid brid now days).1 =
        (borrow_book s bid brid now days).1 := by
  cases hfind : s.books.find? (fun x => x.id == bid) with
  | none =>
    rw [borrow_book_no_row hfind,
      borrow_book_no_row (show ({ s with borrowers := [] } :
        LibraryState).books.find? (fun x => x.id == bid) = none from hfind)]
    refine ⟨?_, fun _ => rfl, rfl⟩
    constructor
    · intro _ b hb
      simp at hb
    · intro _
      rfl
  | some b =>
    by_cases hav : b.available ≤ 0
    · rw [borrow_book_unavailable hfind hav,
        borrow_book_unavailable (show ({ s with borrowers := [] } :
          LibraryState).books.find? (fun x => x.id == bid) = some b from hfind) hav]
      refine ⟨?_, fun _ => rfl, rfl⟩
      constructor
      · intro _ b2 hb2
        exact (Option.some_inj.mp hb2) ▸ hav
      · intro _
        rfl
    · rw [borrow_book_success hfind hav,
        borrow_book_success (show ({ s with borrowers := [] } :
          LibraryState).books.find? (fun x => x.id == bid) = some b from hfind) hav]
      refine ⟨?_, ?_, rfl⟩
      · constructor
        · intro hfalse
          simp at hfalse
        · intro hall
          exact absurd (hall b rfl) hav
      · intro hfalse
        simp at hfalse

theorem borrow_failure_iff_no_copies_witness :
    (borrow_book ⟨[⟨1, "t", "a", "i", "g", 1, 0⟩], [], [], [], 2, 0⟩ 1 7 0 14).1.1 = false :=
  (borrow_failure_iff_no_copies ⟨[⟨1, "t", "a", "i", "g", 1, 0⟩], [], [], [], 2, 0⟩
      1 7 0 14).1.mpr (by decide)

/-- C4 counterexample: `add_book` performs no validation at all — with
`copies = -3` it still succeeds (returns a fresh id) and stores a book whose
`copies` and `available` are both negative, contradicting "fails exactly when
copies is negative". -/
theorem add_book_negative_copies_succeeds :
    (add_book initState "T" "A" "I" "G" (-3)).1 = some 0
    ∧ books_dict_get (add_book initState "T" "A" "I" "G" (-3)).2 0 =
        some ⟨0, "T", "A", "I", "G", -3, -3⟩
    ∧ (-3 : Int) < 0 := by
  refine ⟨rfl, rfl, by decide⟩

/-- C4 amended: `add_book` succeeds for EVERY `copies` value (negative ones
included — no validation happens): it returns the fresh id
`next_book_id`, and reading the catalog reproduces the identical field values
with `available = copies`; when all existing ids are below the counter, the
new id is unique in the catalog and the counter stays an upper bound. -/
theorem add_book_roundtrip (s : LibraryState) (title author isbn genre : String)
    (copies : Int) :
    (add_book s title author isbn genre copies).1 = some s.next_book_id
    ∧ books_dict_get (add_book s title author isbn genre copies).2 s.next_book_id =
        some ⟨s.next_book_id, title, author, isbn, genre, copies, copies⟩
    ∧ ((∀ b ∈ s.books, b.id < s.next_book_id) →
        (add_book s title author isbn genre copies).2.books.countP
            (fun b => b.id == s.next_book_id) = 1
        ∧ ∀ b ∈ (add_book s title author isbn genre copies).2.books,
            b.id < (add_book s title author isbn genre copies).2.next_book_id) := by
  refine ⟨rfl, ?_, ?_⟩
  · show ((s.books ++ [(⟨s.next_book_id, title, author, isbn, genre, copies, copies⟩ :
        Book)]).filter (fun b => b.id == s.next_book_id)).getLast? = _
    rw [List.filter_append]
    have hf : [(⟨s.next_book_id, title, author, isbn, genre, copies, copies⟩ :
        Book)].filter (fun b => b.id == s.next_book_id) =
        [⟨s.next_book_id, title, author, isbn, genre, copies, copies⟩] := by
      simp
    rw [hf]
    exact List.getLast?_concat _
  · intro hfresh
    constructor
    · show (s.books ++ [(⟨s.next_book_id, title, author, isbn, genre, copies, copies⟩ :
          Book)]).countP (fun b => b.id == s.next_book_id) = 1
      rw [List.countP_append]
      have h0 : s.books.countP (fun b => b.id == s.next_book_id) = 0 := by
        rw [List.countP_eq_zero]
        intro b hb
        have := hfresh b hb
        simp only [beq_iff_eq]
        omega
      have h1 : [(⟨s.next_book_id, title, author, isbn, genre, copies, copies⟩ :
          Book)].countP (fun b => b.id == s.next_book_id) = 1 := by
        simp
      omega
    · intro b hb
      show b.id < s.next_book_id + 1
      rcases List.mem_append.mp hb with hl | hr
      · have := hfresh b hl
        omega
      · have hbe : b = (⟨s.next_book_id, title, author, isbn, genre, copies, copies⟩ :
            Book) := by simpa using hr
        rw [hbe]
        exact Nat.lt_succ_self _

theorem add_book_roundtrip_witness :
    books_dict_get (add_book initState "T" "A" "I" "G" 2).2 0 =
        some ⟨0, "T", "A", "I", "G", 2, 2⟩
    ∧ (add_book initState "T" "A" "I" "G" 2).2.books.countP (fun b => b.id == 0) = 1 :=
  ⟨(add_book_roundtrip initState "T" "A" "I" "G" 2).2.1,
   ((add_book_roundtrip initState "T" "A" "I" "G" 2).2.2 (by decide)).1⟩

/-- C5 counterexample: the class method `add_review` called with a book id
that matches no book still succeeds and reports the sentiment label — it does
not fail with InvalidReference. -/
theorem add_review_unknown_book_succeeds :
    (add_review initState 99 7 "great" 5 0 3).1 =
        (true, "Review added with neutral sentiment")
    ∧ initState.books.find? (fun b => b.id == 99) = none := by
  have hlab : sentimentLabel 0 = "neutral" := by
    unfold sentimentLabel
    norm_num
  constructor
  · show (true, "Review added with " ++ sentimentLabel 0 ++ " sentiment") = _
    rw [hlab]
    rfl
  · rfl

/-- C5 amended: the class method `add_review` never checks the book id — it
always succeeds and reports the label computed from the compound score at
creation time.  The unknown-book rejection lives one layer up, in the Flask
route, which answers "Book not found" without calling the method; for an
existing book the route defers to the method. -/
theorem add_review_no_reference_check (s : LibraryState) (bid brid : Nat)
    (text : String) (rating : Int) (compound : ℚ) (now : Nat) :
    (add_review s bid brid text rating compound now).1 =
      (true, "Review added with " ++ sentimentLabel compound ++ " sentiment")
    ∧ ((s.books.find? (fun b => b.id == bid)).isNone = true →
        route_add_review s bid brid text rating compound now = ((false, "Book not found"), s))
    ∧ ((s.books.find? (fun b => b.id == bid)).isNone = false →
        route_add_review s bid brid text rating compound now =
          add_review s bid brid text rating compound now) := by
  refine ⟨rfl, ?_, ?_⟩
  · intro h
    simp [route_add_review, h]
  · intro h
    simp [route_add_review, h]

theorem add_review_no_reference_check_witness :
    route_add_review initState 99 7 "x" 5 0 3 = ((false, "Book not found"), initState)
    ∧ route_add_review ⟨[⟨1, "t", "a", "i", "g", 1, 1⟩], [], [], [], 2, 0⟩ 1 7 "x" 5 0 3 =
        add_review ⟨[⟨1, "t", "a", "i", "g", 1, 1⟩], [], [], [], 2, 0⟩ 1 7 "x" 5 0 3 :=
  ⟨(add_review_no_reference_check initState 99 7 "x" 5 0 3).2.1 (by decide),
   (add_review_no_reference_check ⟨[⟨1, "t", "a", "i", "g", 1, 1⟩], [], [], [], 2, 0⟩
      1 7 "x" 5 0 3).2.2 (by decide)⟩

/-- C9: the classifier labels "positive" exactly when the compound score is
> 0.05, "negative" exactly when it is < -0.05, and "neutral" otherwise; and
`add_review` stores exactly this label, fixed at creation time. -/
theorem sentiment_thresholds (c : ℚ) :
    (sentimentLabel c = "positive" ↔ 5 / 100 < c)
    ∧ (sentimentLabel c = "negative" ↔ c < -(5 / 100))
    ∧ (sentimentLabel c = "neutral" ↔ (-(5 / 100) ≤ c ∧ c ≤ 5 / 100))
    ∧ ∀ (s : LibraryState) (bid brid : Nat) (text : String) (rating : Int) (now : Nat),
        (⟨bid, brid, text, rating, sentimentLabel c, c, now⟩ : Review)
          ∈ (add_review s bid brid text rating c now).2.reviews := by
  have hmem : ∀ (s : LibraryState) (bid brid : Nat) (text : String) (rating : Int)
      (now : Nat),
      (⟨bid, brid, text, rating, sentimentLabel c, c, now⟩ : Review)
        ∈ (add_review s bid brid text rating c now).2.reviews := by
    intro s bid brid text rating now
    show _ ∈ s.reviews ++ [(⟨bid, brid, text, rating, sentimentLabel c, c, now⟩ : Review)]
    exact List.mem_append_right _ (List.mem_singleton.mpr rfl)
  refine ⟨?_, ?_, ?_, hmem⟩ <;> unfold sentimentLabel <;> split_ifs with h1 h2
  · simpa using h1
  · constructor
    · intro h
      exact absurd h (by decide)
    · intro h
      exact absurd h h1
  · constructor
    · intro h
      exact absurd h (by decide)
    · intro h
      exact absurd h h1
  · constructor
    · intro h
      exact absurd h (by decide)
    · intro h
      exact absurd h (not_lt.mpr (le_of_lt (by linarith)))
  · simpa using h2
  · constructor
    · intro h
      exact absurd h (by decide)
    · intro h
      exact absurd h h2
  · constructor
    · intro h
      exact absurd h (by decide)
    · intro h
      exact absurd h1 (not_lt.mpr h.2)
  · constructor
    · intro h
      exact absurd h (by decide)
    · intro h
      exact absurd h2 (not_lt.mpr h.1)
  · constructor
    · intro _
      exact ⟨le_of_not_lt h2, le_of_not_lt h1⟩
    · intro _
      rfl

theorem sentiment_thresholds_witness :
    sentimentLabel (1 / 10) = "positive" :=
  (sentiment_thresholds (1 / 10)).1.mpr (by norm_num)

/-- C2 (the race the code actually has): `borrow_book` issues its SELECT of
`available`, the INSERT of the transaction, and the UPDATE of `available` as
three separate round-trips with no lock or conditional update.  Under the
interleaving in which both clients SELECT before either UPDATEs — schedule
read1, read2, insert1, write1, insert2, write2 — two concurrent borrows of a
book with `available = 1` BOTH return success, two open transactions are
created, and the final `available` is 0.  This contradicts the claimed
exactly-one-succeeds atomicity. -/
theorem borrow_race_both_succeed :
    ((runSchedule 1 7 0 14 [true, false, true, true, false, false]
        (clientInit, clientInit,
         ⟨[⟨1, "t", "a", "i", "g", 1, 1⟩], [], [], [], 2, 0⟩)).1.result =
      some (true, "Book borrowed successfully. Due date: 14"))
    ∧ ((runSchedule 1 7 0 14 [true, false, true, true, false, false]
        (clientInit, clientInit,
         ⟨[⟨1, "t", "a", "i", "g", 1, 1⟩], [], [], [], 2, 0⟩)).2.1.result =
      some (true, "Book borrowed successfully. Due date: 14"))
    ∧ ((runSchedule 1 7 0 14 [true, false, true, true, false, false]
        (clientInit, clientInit,
         ⟨[⟨1, "t", "a", "i", "g", 1, 1⟩], [], [], [], 2, 0⟩)).2.2.books =
      [⟨1, "t", "a", "i", "g", 1, 0⟩])
    ∧ ((runSchedule 1 7 0 14 [true, false, true, true, false, false]
        (clientInit, clientInit,
         ⟨[⟨1, "t", "a", "i", "g", 1, 1⟩], [], [], [], 2, 0⟩)).2.2.transactions.countP
          (fun t => t.return_date == none) = 2) := by
  refine ⟨rfl, rfl, rfl, rfl⟩

/-- Adequacy of the fine-grained model: one client run to completion with no
interleaving computes exactly `borrow_book`. -/
theorem clientSteps_alone_eq_borrow_book (s : LibraryState) (bid brid now days : Nat)
    (c2 : BorrowClient) :
    ((runSchedule bid brid now days [true, true, true] (clientInit, c2, s)).1.result =
      some (borrow_book s bid brid now days).1)
    ∧ (runSchedule bid brid now days [true, true, true] (clientInit, c2, s)).2.2 =
      (borrow_book s bid brid now days).2 := by
  cases hfind : s.books.find? (fun b => b.id == bid) with
  | none =>
    rw [borrow_book_no_row hfind]
    simp [runSchedule, clientStep, clientInit, hfind]
  | some b =>
    by_cases hav : b.available ≤ 0
    · rw [borrow_book_unavailable hfind hav]
      simp [runSchedule, clientStep, clientInit, hfind, hav]
    · rw [borrow_book_success hfind hav]
      simp [runSchedule, clientStep, clientInit, hfind, hav]

/-- C6: `search_books` returns only books whose Jaccard similarity with the
query is strictly positive; the result list is sorted descending by score
(non-strictly: the stable Python sort leaves equal scores in iteration order,
and the spec leaves the tie-break unspecified); when all scores are distinct
the order is strictly descending; and `search_books` is exactly the id
projection of the scored list. -/
theorem search_books_filtered_sorted (norm : String → Finset String)
    (books : List Book) (query scope : String) :
    (∀ p ∈ search_results norm books query scope,
        0 < p.2 ∧ ∃ b ∈ books, p.1 = b.id ∧
          p.2 = jaccardSim (norm query) (norm (combinedText scope b)))
    ∧ (search_results norm books query scope).Pairwise (fun x y => y.2 ≤ x.2)
    ∧ (((search_results norm books query scope).map Prod.snd).Nodup →
        (search_results norm books query scope).Pairwise (fun x y => y.2 < x.2))
    ∧ search_books norm books query scope =
        (search_results norm books query scope).map Prod.fst := by
  have htrans : ∀ a b c : Nat × ℚ, descBySnd a b → descBySnd b c → descBySnd a c := by
    intro a b c h1 h2
    simp only [descBySnd, decide_eq_true_eq] at h1 h2 ⊢
    exact le_trans h2 h1
  have htotal : ∀ a b : Nat × ℚ, descBySnd a b || descBySnd b a := by
    intro a b
    simp only [descBySnd, Bool.or_eq_true, decide_eq_true_eq]
    exact le_total b.2 a.2
  have hsorted : (search_results norm books query scope).Pairwise
      (fun x y : Nat × ℚ => y.2 ≤ x.2) := by
    have hp := List.sorted_mergeSort htrans htotal (search_raw norm books query scope)
    exact hp.imp (fun h => by
      simpa only [descBySnd, decide_eq_true_eq] using h)
  refine ⟨?_, hsorted, ?_, rfl⟩
  · intro p hp
    rw [search_results, List.mem_mergeSort, search_raw, List.mem_filterMap] at hp
    obtain ⟨b, hb, heq⟩ := hp
    by_cases hsim : 0 < jaccardSim (norm query) (norm (combinedText scope b))
    · rw [if_pos hsim] at heq
      have hpe : (b.id, jaccardSim (norm query) (norm (combinedText scope b))) = p :=
        Option.some_inj.mp heq
      rw [← hpe]
      exact ⟨hsim, b, hb, rfl, rfl⟩
    · rw [if_neg hsim] at heq
      cases heq
  · intro hnodup
    have hne : (search_results norm books query scope).Pairwise
        (fun a b : Nat × ℚ => a.2 ≠ b.2) := List.pairwise_map.mp hnodup
    exact (hsorted.and hne).imp (fun h => lt_of_le_of_ne h.1 (Ne.symm h.2))

/-- A concrete normalizer for the witness: every text maps to the one-token
set containing itself. -/
def normW : String → Finset String :=
  fun t => {t}

/-- A concrete catalog entry for the witness. -/
def bookW : Book :=
  ⟨1, "q", "q", "i", "q", 1, 1⟩

/-- On the witness catalog the scored result list evaluates to `[(1, 1)]`. -/
lemma search_results_witness_eval :
    search_results normW [bookW] "q" "title" = [(1, 1)] := by
  have hcomb : combinedText "title" bookW = "q" := rfl
  have hj : jaccardSim (normW "q") (normW (combinedText "title" bookW)) = 1 := by
    rw [hcomb]
    unfold normW jaccardSim
    rw [Finset.union_self, Finset.inter_self]
    norm_num
  have hraw : search_raw normW [bookW] "q" "title" = [(1, 1)] := by
    rw [search_raw]
    simp only [List.filterMap_cons, List.filterMap_nil, hj]
    rw [if_pos (show (0 : ℚ) < 1 by norm_num)]
    rfl
  rw [search_results, hraw]
  simp

theorem search_books_filtered_sorted_witness :
    (search_results normW [bookW] "q" "title").Pairwise
      (fun x y : Nat × ℚ => y.2 < x.2) :=
  (search_books_filtered_sorted normW [bookW] "q" "title").2.2.1
    (by rw [search_results_witness_eval] ; simp)

end LibraryMS
